import Mathlib

/-!
Shallow embedding of the regression pipeline in Predict (Regression)/CNN.py.

Tensors are modelled over exact rationals: a batch of images is a list of
images, a batch of scalars is a list of rationals, and a two-dimensional
tensor of auxiliary parameters carries its second shape component (the
width read by shape[1]) together with its rows.  The external deep-learning
layers (pretrained backbones, nn.Linear / nn.Sequential blocks) perform no
control flow of their own in the source, so each is modelled as an abstract
function supplied at construction time through the Weights record, exactly
as the framework supplies pretrained or randomly initialised parameters.
Fallible Python operations are modelled with Except over a small error
type mirroring the exceptions the interpreter raises.
-/

/-- The Python exceptions that the script can raise. -/
inductive PyErr where
  | valueError (msg : String)
  | keyError (key : String)
  | runtimeError (msg : String)
  | zeroDivisionError
deriving DecidableEq

/-- A three-channel image tensor, modelled as nested lists of rationals.
The loops never inspect image contents, only batch structure. -/
abbrev Image := List (List (List ℚ))

/-- A two-dimensional tensor of auxiliary parameters: shape (rows.length, width).
The field width models shape[1], which the forward pass dispatches on. -/
structure ExtraBatch where
  width : Nat
  rows : List (List ℚ)
deriving DecidableEq

/-- The externally supplied parameters of every sub-network: the pretrained
backbones (with their classification heads replaced by identities) and the
randomly initialised linear blocks.  Each is an abstract map, since the
source delegates all numeric work to the framework. -/
structure Weights where
  resnet18_features : Image → List ℚ
  efficientnet_b0_features : Image → List ℚ
  simple_cnn_features : Image → List ℚ
  reduce_init : List ℚ → List ℚ
  param_fc_2_init : List ℚ → List ℚ
  param_fc_3_init : List ℚ → List ℚ
  fc1_aux_init : List ℚ → List ℚ
  fc1_plain_init : List ℚ → List ℚ
  fc2_init : List ℚ → ℚ

/-- The constructed model.  In the source the param_fc_2 / param_fc_3
attributes are only created when use_extra_params is set; here the fields
are always present but the forward pass consults them only when
use_extra_params is true, so the difference is unobservable. -/
structure CNN where
  model_type : String
  use_extra_params : Bool
  feature_dim : Nat
  feature_extractor : Image → List ℚ
  reduce : List ℚ → List ℚ
  param_fc_2 : List ℚ → List ℚ
  param_fc_3 : List ℚ → List ℚ
  fc1 : List ℚ → List ℚ
  fc2 : List ℚ → ℚ

/-- CNN.__init__: selects the backbone and its feature dimension from the
model type string, raising ValueError for any unsupported name, then builds
the reduction layer, the two auxiliary encoders and the head, where fc1 is
sized 128+64 when auxiliary parameters are enabled and 128 otherwise. -/
def CNN.init (model_type : String) (use_extra_params : Bool) (w : Weights) :
    Except PyErr CNN :=
  match (if model_type = "resnet18" then
          Except.ok (w.resnet18_features, 512)
        else if model_type = "efficientnet_b0" then
          Except.ok (w.efficientnet_b0_features, 1280)
        else if model_type = "simple_cnn" then
          Except.ok (w.simple_cnn_features, 64)
        else
          Except.error (PyErr.valueError ("Unsupported model type: " ++ model_type)) :
          Except PyErr ((Image → List ℚ) × Nat)) with
  | .error e => .error e
  | .ok (fe, feature_dim) =>
    .ok { model_type := model_type
          use_extra_params := use_extra_params
          feature_dim := feature_dim
          feature_extractor := fe
          reduce := w.reduce_init
          param_fc_2 := w.param_fc_2_init
          param_fc_3 := w.param_fc_3_init
          fc1 := if use_extra_params then w.fc1_aux_init else w.fc1_plain_init
          fc2 := w.fc2_init }

/-- The tail of forward in the enabled case: torch.cat([x, p], dim=1),
which requires the two batch dimensions to agree (RuntimeError otherwise),
followed by fc1, fc2 and squeeze(1). -/
def catHead (m : CNN) (x2 p : List (List ℚ)) : Except PyErr (List ℚ) :=
  if p.length = x2.length then
    .ok ((List.zipWith (fun a b => a ++ b) x2 p).map fun v => m.fc2 (m.fc1 v))
  else
    .error (.runtimeError "Sizes of tensors must match except in dimension 1")

/-- CNN.forward: extracts and reduces image features; when auxiliary
parameters are enabled it requires the extra_params argument (ValueError if
omitted), dispatches on its width (2 or 3, ValueError otherwise) to pick
the encoder, concatenates through catHead and applies the head; when
disabled the head runs on the image embedding alone and extra_params is
never consulted.  The result of squeeze(1) is one rational per sample. -/
def CNN.forward (m : CNN) (x : List Image) (extra_params : Option ExtraBatch) :
    Except PyErr (List ℚ) :=
  let x1 := x.map m.feature_extractor
  let x2 := x1.map m.reduce
  if m.use_extra_params then
    match extra_params with
    | none => .error (.valueError "extra_params is required but not provided.")
    | some ep =>
      if ep.width = 2 then catHead m x2 (ep.rows.map m.param_fc_2)
      else if ep.width = 3 then catHead m x2 (ep.rows.map m.param_fc_3)
      else .error (.valueError "error - extra_params shape")
  else
    .ok (x2.map fun v => m.fc2 (m.fc1 v))

/-- One batch yielded by a train or validation loader:
(inputs, labels, extra_params). -/
structure TrainBatch where
  images : List Image
  labels : List ℚ
  extra : ExtraBatch

/-- The abstract loss criterion supplied externally to the loops. -/
abbrev Criterion := List ℚ → List ℚ → ℚ

/-- The combined effect of loss.backward, optimizer.step and
optimizer.zero_grad on the parameters: an abstract update of the model from
the current model, the current batch and the loss value. -/
abbrev Opt := CNN → TrainBatch → ℚ → CNN

/-- The body of train: iterate the batches, run the model, take one
optimizer step, and accumulate total_loss (+ loss * batch size) and total
(+ batch size). -/
def trainLoop (c : Criterion) (opt : Opt) :
    List TrainBatch → CNN → ℚ → Nat → Except PyErr (ℚ × Nat × CNN)
  | [], m, total_loss, total => .ok (total_loss, total, m)
  | b :: bs, m, total_loss, total =>
    match CNN.forward m b.images (some b.extra) with
    | .error e => .error e
    | .ok outputs =>
      let loss := c outputs b.labels
      trainLoop c opt bs (opt m b loss)
        (total_loss + loss * (b.images.length : ℚ)) (total + b.images.length)

/-- train: one full pass over the loader, returning avg_loss =
total_loss / total (a ZeroDivisionError when total is zero, as in Python)
together with the updated model. -/
def train (m : CNN) (bs : List TrainBatch) (c : Criterion) (opt : Opt) :
    Except PyErr (ℚ × CNN) :=
  match trainLoop c opt bs m 0 0 with
  | .error e => .error e
  | .ok (total_loss, total, mf) =>
    if total = 0 then .error .zeroDivisionError
    else .ok (total_loss / (total : ℚ), mf)

/-- sklearn.metrics.mean_absolute_error on two equally long non-empty
sequences: the mean of the absolute differences.  sklearn raises a
ValueError on empty input or mismatched lengths. -/
def mean_absolute_error (y_true y_pred : List ℚ) : Except PyErr ℚ :=
  if y_true.length = 0 ∨ y_pred.length = 0 then
    .error (.valueError "Found array with 0 sample(s)")
  else if y_true.length ≠ y_pred.length then
    .error (.valueError "Found input variables with inconsistent numbers of samples")
  else
    .ok ((List.zipWith (fun a b => |a - b|) y_true y_pred).sum / (y_true.length : ℚ))

/-- The body of validate: same iteration as training but with no optimizer
step, additionally extending all_labels and all_outputs with each batch. -/
def validateLoop (c : Criterion) :
    List TrainBatch → CNN → ℚ → Nat → List ℚ → List ℚ →
    Except PyErr (ℚ × Nat × List ℚ × List ℚ × CNN)
  | [], m, total_loss, total, all_labels, all_outputs =>
    .ok (total_loss, total, all_labels, all_outputs, m)
  | b :: bs, m, total_loss, total, all_labels, all_outputs =>
    match CNN.forward m b.images (some b.extra) with
    | .error e => .error e
    | .ok outputs =>
      let loss := c outputs b.labels
      validateLoop c bs m
        (total_loss + loss * (b.images.length : ℚ)) (total + b.images.length)
        (all_labels ++ b.labels) (all_outputs ++ outputs)

/-- validate: one full pass with no parameter update, returning
(avg_loss, mean absolute error of all collected labels and outputs) and the
model it finished with.  The division producing avg_loss happens before the
metric, so an empty pass raises ZeroDivisionError. -/
def validate (m : CNN) (bs : List TrainBatch) (c : Criterion) :
    Except PyErr ((ℚ × ℚ) × CNN) :=
  match validateLoop c bs m 0 0 [] [] with
  | .error e => .error e
  | .ok (total_loss, total, all_labels, all_outputs, mf) =>
    if total = 0 then .error .zeroDivisionError
    else
      match mean_absolute_error all_labels all_outputs with
      | .error e => .error e
      | .ok mae => .ok ((total_loss / (total : ℚ), mae), mf)

/-- Round-half-to-even on a rational, the tie rule of the Python built-in
round.  The loops only ever compare which precision is applied where, never
a particular tie, so the exact-rational idealisation is adequate. -/
def roundHalfEven (q : ℚ) : ℤ :=
  let f : ℤ := ⌊q⌋
  let r : ℚ := q - (f : ℚ)
  if r < 1 / 2 then f
  else if 1 / 2 < r then f + 1
  else if f % 2 = 0 then f else f + 1

/-- The Python built-in round(x, ndigits): bankers rounding at the given
number of decimal digits, modelled on exact rationals. -/
def pyround (x : ℚ) (ndigits : Nat) : ℚ :=
  (roundHalfEven (x * (10 : ℚ) ^ ndigits) : ℚ) / (10 : ℚ) ^ ndigits

/-- One row of the Earthquake.csv reference table: the identifier column
Image and the four target columns Mag, Lon, Lat, Depth. -/
structure EqRow where
  image : String
  mag : ℚ
  lon : ℚ
  lat : ℚ
  depth : ℚ
deriving DecidableEq

/-- Lookup in a Python dict built by dict(zip(keys, values)): on duplicate
keys the last pair wins, and a missing key is reported (the caller raises
KeyError). -/
def dictGet (d : List (String × ℚ)) (k : String) : Option ℚ :=
  d.reverse.lookup k

/-- dict(zip(df.Image, df.Mag)). -/
def label_mag (df : List EqRow) : List (String × ℚ) :=
  df.map fun r => (r.image, r.mag)

/-- dict(zip(df.Image, df.Lon)). -/
def label_lon (df : List EqRow) : List (String × ℚ) :=
  df.map fun r => (r.image, r.lon)

/-- dict(zip(df.Image, df.Lat)). -/
def label_lat (df : List EqRow) : List (String × ℚ) :=
  df.map fun r => (r.image, r.lat)

/-- dict(zip(df.Image, df.Depth)). -/
def label_dep (df : List EqRow) : List (String × ℚ) :=
  df.map fun r => (r.image, r.depth)

/-- One row appended to the predictions list: the dict
with keys id, Mag|Dep|Lon|Lat (field label) and prediction. -/
structure PredRow where
  id : String
  label : ℚ
  prediction : ℚ
deriving DecidableEq

/-- The per-sample body of the test loop: branch on the target, look the
identifier up in the matching ground-truth dict (KeyError when absent),
and produce the prediction record together with the y_true and y_pred
entries.  Magnitude and depth round the prediction to 1 decimal in both
places; longitude and the final else branch (latitude and every other
target string) record 3 decimals but contribute 2 decimals to the metric. -/
def processSample (target : String) (tbl : List EqRow) (name : String) (pred : ℚ) :
    Except PyErr (PredRow × ℚ × ℚ) :=
  if target = "mag" then
    match dictGet (label_mag tbl) name with
    | none => .error (.keyError name)
    | some v =>
      .ok ({ id := name, label := v, prediction := pyround pred 1 }, v, pyround pred 1)
  else if target = "dep" then
    match dictGet (label_dep tbl) name with
    | none => .error (.keyError name)
    | some v =>
      .ok ({ id := name, label := v, prediction := pyround pred 1 }, v, pyround pred 1)
  else if target = "lon" then
    match dictGet (label_lon tbl) name with
    | none => .error (.keyError name)
    | some v =>
      .ok ({ id := name, label := v, prediction := pyround pred 3 }, v, pyround pred 2)
  else
    match dictGet (label_lat tbl) name with
    | none => .error (.keyError name)
    | some v =>
      .ok ({ id := name, label := v, prediction := pyround pred 3 }, v, pyround pred 2)

/-- Process the zipped (image name, prediction) pairs of one batch in
order, collecting the prediction records and the y_true / y_pred lists. -/
def processSamples (target : String) (tbl : List EqRow) :
    List (String × ℚ) → Except PyErr (List PredRow × List ℚ × List ℚ)
  | [] => .ok ([], [], [])
  | (nm, p) :: rest =>
    match processSample target tbl nm p with
    | .error e => .error e
    | .ok (row, yt, yp) =>
      match processSamples target tbl rest with
      | .error e => .error e
      | .ok (rows, yts, yps) => .ok (row :: rows, yt :: yts, yp :: yps)

/-- One batch yielded by the test loader: (images, image_names, extra_params). -/
structure TestBatch where
  images : List Image
  image_names : List String
  extra : ExtraBatch

/-- The batch iteration of test: run the model on each batch and process
the zip of names with predictions, accumulating across batches. -/
def testLoop (m : CNN) (target : String) (tbl : List EqRow) :
    List TestBatch → Except PyErr (List PredRow × List ℚ × List ℚ)
  | [] => .ok ([], [], [])
  | b :: bs =>
    match CNN.forward m b.images (some b.extra) with
    | .error e => .error e
    | .ok outputs =>
      match processSamples target tbl (b.image_names.zip outputs) with
      | .error e => .error e
      | .ok (rows, yts, yps) =>
        match testLoop m target tbl bs with
        | .error e => .error e
        | .ok (rows2, yts2, yps2) => .ok (rows ++ rows2, yts ++ yts2, yps ++ yps2)

/-- The CSV header chosen by target in the writer section of test. -/
def fieldnamesFor (target : String) : List String :=
  if target = "mag" then ["id", "Mag", "prediction"]
  else if target = "dep" then ["id", "Dep", "prediction"]
  else if target = "lon" then ["id", "Lon", "prediction"]
  else ["id", "Lat", "prediction"]

/-- What test produces: the aggregate MAE (rounded to 3 decimals), the CSV
header, the rows written to the output file, and the two metric lists the
source accumulates. -/
structure TestResult where
  MAE : ℚ
  fieldnames : List String
  predictions : List PredRow
  y_true : List ℚ
  y_pred : List ℚ
deriving DecidableEq

/-- test: iterate the loader, compute MAE = round(mean_absolute_error(
y_true, y_pred), 3), and assemble the rows and header that are written to
the output CSV (the file system write itself is external glue). -/
def test (m : CNN) (bs : List TestBatch) (tbl : List EqRow) (target : String) :
    Except PyErr TestResult :=
  match testLoop m target tbl bs with
  | .error e => .error e
  | .ok (preds, yts, yps) =>
    match mean_absolute_error yts yps with
    | .error e => .error e
    | .ok v =>
      .ok { MAE := pyround v 3
            fieldnames := fieldnamesFor target
            predictions := preds
            y_true := yts
            y_pred := yps }

/-- Spec-side reference definition (for the refinement comparison of the
training claim): the list of (per-batch loss, batch size) pairs produced by
one full pass, with the model evolving by the optimizer step after each
batch exactly as in the loop. -/
def specBatchLosses (c : Criterion) (opt : Opt) :
    List TrainBatch → CNN → Except PyErr (List (ℚ × Nat))
  | [], _ => .ok []
  | b :: bs, m =>
    match CNN.forward m b.images (some b.extra) with
    | .error e => .error e
    | .ok outputs =>
      let loss := c outputs b.labels
      match specBatchLosses c opt bs (opt m b loss) with
      | .error e => .error e
      | .ok ls => .ok ((loss, b.images.length) :: ls)

/-- Spec-side reference definition: the size-weighted mean of a list of
(loss, batch size) pairs, i.e. the sum over batches of loss times batch
size divided by the total number of samples seen. -/
def sizeWeightedMean (ls : List (ℚ × Nat)) : ℚ :=
  (ls.map fun p => p.1 * (p.2 : ℚ)).sum / (ls.map fun p => ((p.2 : Nat) : ℚ)).sum

/-- Spec-side reference definition (for the validation claim): the labels
and predictions collected over one full pass with the model held fixed,
together with the (loss, batch size) pairs. -/
def specValPass (c : Criterion) :
    List TrainBatch → CNN → Except PyErr (List ℚ × List ℚ × List (ℚ × Nat))
  | [], _ => .ok ([], [], [])
  | b :: bs, m =>
    match CNN.forward m b.images (some b.extra) with
    | .error e => .error e
    | .ok outputs =>
      let loss := c outputs b.labels
      match specValPass c bs m with
      | .error e => .error e
      | .ok (labs, outs, ls) =>
        .ok (b.labels ++ labs, outputs ++ outs, (loss, b.images.length) :: ls)

/-- A concrete image for the evaluation examples. -/
def cexImg : Image := [[[0]]]

/-- Concrete external parameters: every layer is a constant map, which is
enough to exercise all the control flow of the script. -/
def cexW : Weights where
  resnet18_features := fun _ => List.replicate 512 0
  efficientnet_b0_features := fun _ => List.replicate 1280 0
  simple_cnn_features := fun _ => List.replicate 64 0
  reduce_init := fun _ => List.replicate 128 0
  param_fc_2_init := fun _ => List.replicate 64 0
  param_fc_3_init := fun _ => List.replicate 64 0
  fc1_aux_init := fun _ => List.replicate 64 0
  fc1_plain_init := fun _ => List.replicate 64 0
  fc2_init := fun _ => 0

/-- The model built by CNN.init "simple_cnn" true cexW. -/
def cexAux : CNN :=
  { model_type := "simple_cnn"
    use_extra_params := true
    feature_dim := 64
    feature_extractor := cexW.simple_cnn_features
    reduce := cexW.reduce_init
    param_fc_2 := cexW.param_fc_2_init
    param_fc_3 := cexW.param_fc_3_init
    fc1 := cexW.fc1_aux_init
    fc2 := cexW.fc2_init }

/-- The model built by CNN.init "simple_cnn" false cexW. -/
def cexPlain : CNN :=
  { model_type := "simple_cnn"
    use_extra_params := false
    feature_dim := 64
    feature_extractor := cexW.simple_cnn_features
    reduce := cexW.reduce_init
    param_fc_2 := cexW.param_fc_2_init
    param_fc_3 := cexW.param_fc_3_init
    fc1 := cexW.fc1_plain_init
    fc2 := cexW.fc2_init }

/-- A one-row reference table: identifier A with Mag 5, Lon 6, Lat 7, Depth 8. -/
def cexTbl : List EqRow := [{ image := "A", mag := 5, lon := 6, lat := 7, depth := 8 }]

/-- A single training batch: one image with label 1 and a width-2 auxiliary row. -/
def cexTrainBs : List TrainBatch :=
  [{ images := [cexImg], labels := [1], extra := { width := 2, rows := [[0, 0]] } }]

/-- A constant loss criterion for the evaluation examples. -/
def cexCrit : Criterion := fun _ _ => 2

/-- An optimizer step that leaves the parameters in place, adequate for
exercising the loss accumulation. -/
def cexOpt : Opt := fun m _ _ => m

/-- A single test batch whose sole identifier A is present in cexTbl. -/
def cexTestBs : List TestBatch :=
  [{ images := [cexImg], image_names := ["A"], extra := { width := 2, rows := [[0, 0]] } }]

/-- A single test batch whose sole identifier Z is absent from cexTbl. -/
def cexTestBsMissing : List TestBatch :=
  [{ images := [cexImg], image_names := ["Z"], extra := { width := 2, rows := [[0, 0]] } }]

/-- The result test produces on cexTestBs against cexTbl for target mag:
prediction 0 rounded to 1 decimal, ground truth 5, and the aggregate MAE of
those two rounded to 3 decimals. -/
def cexRes : TestResult :=
  { MAE := pyround ((List.zipWith (fun a b => |a - b|) [(5 : ℚ)] [pyround 0 1]).sum /
      (([(5 : ℚ)].length : ℕ) : ℚ)) 3
    fieldnames := ["id", "Mag", "prediction"]
    predictions := [{ id := "A", label := 5, prediction := pyround 0 1 }]
    y_true := [5]
    y_pred := [pyround 0 1] }

theorem CNN.init_ok_fields (mt : String) (uep : Bool) (w : Weights) (m : CNN)
    (h : CNN.init mt uep w = .ok m) :
    m.use_extra_params = uep ∧ m.param_fc_2 = w.param_fc_2_init ∧
      m.param_fc_3 = w.param_fc_3_init := by
  unfold CNN.init at h
  split at h
  · exact Except.noConfusion h
  · simp only [Except.ok.injEq] at h
    subst h
    exact ⟨rfl, rfl, rfl⟩

theorem catHead_ok_length (m : CNN) (x2 p : List (List ℚ)) (out : List ℚ)
    (h : catHead m x2 p = .ok out) : out.length = x2.length := by
  unfold catHead at h
  by_cases hl : p.length = x2.length
  · rw [if_pos hl] at h
    simp only [Except.ok.injEq] at h
    subst h
    simp only [List.length_map, List.length_zipWith, hl, min_self]
  · rw [if_neg hl] at h
    exact Except.noConfusion h

theorem CNN.forward_ok_length (m : CNN) (xs : List Image) (e : Option ExtraBatch)
    (out : List ℚ) (h : CNN.forward m xs e = .ok out) : out.length = xs.length := by
  unfold CNN.forward at h
  by_cases hu : m.use_extra_params = true
  · rw [if_pos hu] at h
    cases e with
    | none => exact Except.noConfusion h
    | some ep =>
      dsimp only at h
      by_cases h2 : ep.width = 2
      · rw [if_pos h2] at h
        have := catHead_ok_length m _ _ _ h
        simpa using this
      · rw [if_neg h2] at h
        by_cases h3 : ep.width = 3
        · rw [if_pos h3] at h
          have := catHead_ok_length m _ _ _ h
          simpa using this
        · rw [if_neg h3] at h
          exact Except.noConfusion h
  · rw [if_neg hu] at h
    simp only [Except.ok.injEq] at h
    subst h
    simp

theorem lookup_eq_none_iff (l : List (String × ℚ)) (k : String) :
    List.lookup k l = none ↔ k ∉ l.map Prod.fst := by
  induction l with
  | nil => simp [List.lookup]
  | cons a l ih =>
    obtain ⟨ak, av⟩ := a
    by_cases hk : k = ak
    · subst hk
      simp [List.lookup]
    · have hbeq : (k == ak) = false := beq_false_of_ne hk
      simp only [List.lookup, hbeq, List.map_cons, List.mem_cons]
      rw [ih]
      simp [hk]

theorem dictGet_eq_none_iff (d : List (String × ℚ)) (k : String) :
    dictGet d k = none ↔ k ∉ d.map Prod.fst := by
  unfold dictGet
  rw [lookup_eq_none_iff]
  simp

theorem dictGet_some_mem (d : List (String × ℚ)) (k : String) (v : ℚ)
    (h : dictGet d k = some v) : k ∈ d.map Prod.fst := by
  by_contra hn
  rw [(dictGet_eq_none_iff d k).mpr hn] at h
  exact Option.noConfusion h

theorem processSample_error (target : String) (tbl : List EqRow) (nm : String) (p : ℚ)
    (e : PyErr) (h : processSample target tbl nm p = .error e) :
    e = .keyError nm ∧ nm ∉ tbl.map EqRow.image := by
  unfold processSample at h
  split_ifs at h <;>
    (split at h
     case _ hd =>
       injection h with h1
       refine ⟨h1.symm, ?_⟩
       have hnm := (dictGet_eq_none_iff _ _).mp hd
       simpa [label_mag, label_dep, label_lon, label_lat, List.map_map] using hnm
     case _ v hd => exact Except.noConfusion h)

theorem processSample_ok_mem (target : String) (tbl : List EqRow) (nm : String) (p : ℚ)
    (r : PredRow × ℚ × ℚ) (h : processSample target tbl nm p = .ok r) :
    nm ∈ tbl.map EqRow.image := by
  unfold processSample at h
  split_ifs at h <;>
    (split at h
     case _ hd => exact Except.noConfusion h
     case _ v hd =>
       have hnm := dictGet_some_mem _ _ _ hd
       simpa [label_mag, label_dep, label_lon, label_lat, List.map_map] using hnm)

theorem processSamples_error (target : String) (tbl : List EqRow) :
    ∀ (pairs : List (String × ℚ)) (e : PyErr),
      processSamples target tbl pairs = .error e →
      ∃ nm, e = .keyError nm ∧ nm ∉ tbl.map EqRow.image := by
  intro pairs
  induction pairs with
  | nil => intro e h; exact Except.noConfusion h
  | cons q rest ih =>
    intro e h
    obtain ⟨nm, p⟩ := q
    unfold processSamples at h
    cases hs : processSample target tbl nm p with
    | error e0 =>
      rw [hs] at h
      injection h with h1
      subst h1
      exact ⟨nm, processSample_error target tbl nm p e0 hs⟩
    | ok r =>
      rw [hs] at h
      obtain ⟨row, yt, yp⟩ := r
      dsimp only at h
      cases hr : processSamples target tbl rest with
      | error e1 =>
        rw [hr] at h
        injection h with h1
        subst h1
        exact ih e1 hr
      | ok res =>
        rw [hr] at h
        obtain ⟨rows, yts, yps⟩ := res
        exact Except.noConfusion h

theorem processSamples_ok_mem (target : String) (tbl : List EqRow) :
    ∀ (pairs : List (String × ℚ)) (res : List PredRow × List ℚ × List ℚ),
      processSamples target tbl pairs = .ok res →
      ∀ q ∈ pairs, q.1 ∈ tbl.map EqRow.image := by
  intro pairs
  induction pairs with
  | nil => intro res h q hq; cases hq
  | cons q0 rest ih =>
    intro res h q hq
    obtain ⟨nm, p⟩ := q0
    unfold processSamples at h
    cases hs : processSample target tbl nm p with
    | error e0 => rw [hs] at h; exact Except.noConfusion h
    | ok r =>
      rw [hs] at h
      obtain ⟨row, yt, yp⟩ := r
      dsimp only at h
      cases hr : processSamples target tbl rest with
      | error e1 => rw [hr] at h; exact Except.noConfusion h
      | ok res0 =>
        rcases List.mem_cons.mp hq with hq0 | hq0
        · subst hq0
          exact processSample_ok_mem target tbl nm p _ hs
        · exact ih res0 hr q hq0

theorem mem_zip_left (l1 : List String) (l2 : List ℚ) (hlen : l1.length = l2.length)
    (a : String) (ha : a ∈ l1) : ∃ b, (a, b) ∈ l1.zip l2 := by
  induction l1 generalizing l2 with
  | nil => cases ha
  | cons x l ih =>
    cases l2 with
    | nil => simp at hlen
    | cons y l2 =>
      rcases List.mem_cons.mp ha with h | h
      · exact ⟨y, by simp [h]⟩
      · obtain ⟨b, hb⟩ := ih l2 (by simpa using hlen) h
        exact ⟨b, List.mem_cons_of_mem _ hb⟩

theorem testLoop_error_key (m : CNN) (target : String) (tbl : List EqRow) :
    ∀ (bs : List TestBatch),
      (∀ b ∈ bs, ∃ outs, CNN.forward m b.images (some b.extra) = .ok outs) →
      ∀ e, testLoop m target tbl bs = .error e →
      ∃ nm, e = .keyError nm ∧ nm ∉ tbl.map EqRow.image := by
  intro bs
  induction bs with
  | nil => intro _ e h; exact Except.noConfusion h
  | cons b bs ih =>
    intro hfwd e h
    obtain ⟨outs, houts⟩ := hfwd b (List.mem_cons_self _ _)
    unfold testLoop at h
    rw [houts] at h
    dsimp only at h
    cases hp : processSamples target tbl (b.image_names.zip outs) with
    | error e0 =>
      rw [hp] at h
      injection h with h1
      subst h1
      exact processSamples_error target tbl _ e0 hp
    | ok r =>
      rw [hp] at h
      obtain ⟨rows, yts, yps⟩ := r
      dsimp only at h
      cases ht : testLoop m target tbl bs with
      | error e1 =>
        rw [ht] at h
        injection h with h1
        subst h1
        exact ih (fun b hb => hfwd b (List.mem_cons_of_mem _ hb)) e1 ht
      | ok r2 =>
        rw [ht] at h
        obtain ⟨rows2, yts2, yps2⟩ := r2
        exact Except.noConfusion h

theorem testLoop_ok_names (m : CNN) (target : String) (tbl : List EqRow) :
    ∀ (bs : List TestBatch) (res : List PredRow × List ℚ × List ℚ),
      testLoop m target tbl bs = .ok res →
      (∀ b ∈ bs, b.image_names.length = b.images.length) →
      ∀ b ∈ bs, ∀ nm ∈ b.image_names, nm ∈ tbl.map EqRow.image := by
  intro bs
  induction bs with
  | nil => intro res h _ b hb; cases hb
  | cons b0 bs ih =>
    intro res h hnames b hb nm hnm
    unfold testLoop at h
    cases hf : CNN.forward m b0.images (some b0.extra) with
    | error e => rw [hf] at h; exact Except.noConfusion h
    | ok outs =>
      rw [hf] at h
      dsimp only at h
      cases hp : processSamples target tbl (b0.image_names.zip outs) with
      | error e0 => rw [hp] at h; exact Except.noConfusion h
      | ok r =>
        rw [hp] at h
        obtain ⟨rows, yts, yps⟩ := r
        dsimp only at h
        cases ht : testLoop m target tbl bs with
        | error e1 => rw [ht] at h; exact Except.noConfusion h
        | ok r2 =>
          rcases List.mem_cons.mp hb with hb0 | hb0
          · subst hb0
            have hlen : b.image_names.length = outs.length := by
              rw [hnames b (List.mem_cons_self _ _)]
              exact (CNN.forward_ok_length m b.images _ outs hf).symm
            obtain ⟨p, hp2⟩ := mem_zip_left b.image_names outs hlen nm hnm
            exact processSamples_ok_mem target tbl _ _ hp (nm, p) hp2
          · exact ih r2 ht (fun b hb => hnames b (List.mem_cons_of_mem _ hb)) b hb0 nm hnm

theorem trainLoop_of_spec (c : Criterion) (opt : Opt) :
    ∀ (bs : List TrainBatch) (m : CNN) (ls : List (ℚ × Nat)) (tl : ℚ) (t : Nat),
      specBatchLosses c opt bs m = .ok ls →
      ∃ mf, trainLoop c opt bs m tl t =
        .ok (tl + (ls.map fun q => q.1 * (q.2 : ℚ)).sum,
             t + (ls.map Prod.snd).sum, mf) := by
  intro bs
  induction bs with
  | nil =>
    intro m ls tl t h
    unfold specBatchLosses at h
    injection h with h1
    subst h1
    exact ⟨m, by simp [trainLoop]⟩
  | cons b bs ih =>
    intro m ls tl t h
    unfold specBatchLosses at h
    cases hf : CNN.forward m b.images (some b.extra) with
    | error e => rw [hf] at h; exact Except.noConfusion h
    | ok outputs =>
      rw [hf] at h
      dsimp only at h
      cases hs : specBatchLosses c opt bs (opt m b (c outputs b.labels)) with
      | error e => rw [hs] at h; exact Except.noConfusion h
      | ok ls0 =>
        rw [hs] at h
        dsimp only at h
        injection h with h1
        subst h1
        obtain ⟨mf, hmf⟩ := ih (opt m b (c outputs b.labels)) ls0
          (tl + c outputs b.labels * (b.images.length : ℚ)) (t + b.images.length) hs
        refine ⟨mf, ?_⟩
        unfold trainLoop
        rw [hf]
        dsimp only
        rw [hmf]
        simp [add_assoc]

theorem specBatchLosses_sizes (c : Criterion) (opt : Opt) :
    ∀ (bs : List TrainBatch) (m : CNN) (ls : List (ℚ × Nat)),
      specBatchLosses c opt bs m = .ok ls →
      ls.map Prod.snd = bs.map fun b => b.images.length := by
  intro bs
  induction bs with
  | nil =>
    intro m ls h
    unfold specBatchLosses at h
    injection h with h1
    subst h1
    rfl
  | cons b bs ih =>
    intro m ls h
    unfold specBatchLosses at h
    cases hf : CNN.forward m b.images (some b.extra) with
    | error e => rw [hf] at h; exact Except.noConfusion h
    | ok outputs =>
      rw [hf] at h
      dsimp only at h
      cases hs : specBatchLosses c opt bs (opt m b (c outputs b.labels)) with
      | error e => rw [hs] at h; exact Except.noConfusion h
      | ok ls0 =>
        rw [hs] at h
        dsimp only at h
        injection h with h1
        subst h1
        simp only [List.map_cons]
        rw [ih _ ls0 hs]

theorem validateLoop_of_spec (c : Criterion) :
    ∀ (bs : List TrainBatch) (m : CNN) (labs outs : List ℚ) (ls : List (ℚ × Nat))
      (tl : ℚ) (t : Nat) (accL accO : List ℚ),
      specValPass c bs m = .ok (labs, outs, ls) →
      validateLoop c bs m tl t accL accO =
        .ok (tl + (ls.map fun q => q.1 * (q.2 : ℚ)).sum,
             t + (ls.map Prod.snd).sum, accL ++ labs, accO ++ outs, m) := by
  intro bs
  induction bs with
  | nil =>
    intro m labs outs ls tl t accL accO h
    unfold specValPass at h
    simp only [Except.ok.injEq, Prod.mk.injEq] at h
    obtain ⟨rfl, rfl, rfl⟩ := h
    simp [validateLoop]
  | cons b bs ih =>
    intro m labs outs ls tl t accL accO h
    unfold specValPass at h
    cases hf : CNN.forward m b.images (some b.extra) with
    | error e => rw [hf] at h; exact Except.noConfusion h
    | ok outputs =>
      rw [hf] at h
      dsimp only at h
      cases hs : specValPass c bs m with
      | error e => rw [hs] at h; exact Except.noConfusion h
      | ok r =>
        rw [hs] at h
        obtain ⟨labs0, outs0, ls0⟩ := r
        dsimp only at h
        simp only [Except.ok.injEq, Prod.mk.injEq] at h
        obtain ⟨rfl, rfl, rfl⟩ := h
        have hrec := ih m labs0 outs0 ls0
          (tl + c outputs b.labels * (b.images.length : ℚ)) (t + b.images.length)
          (accL ++ b.labels) (accO ++ outputs) hs
        unfold validateLoop
        rw [hf]
        dsimp only
        rw [hrec]
        simp [add_assoc]

theorem specValPass_sizes (c : Criterion) :
    ∀ (bs : List TrainBatch) (m : CNN) (labs outs : List ℚ) (ls : List (ℚ × Nat)),
      specValPass c bs m = .ok (labs, outs, ls) →
      ls.map Prod.snd = (bs.map fun b => b.images.length) ∧
      labs.length = (bs.map fun b => b.labels.length).sum ∧
      outs.length = (bs.map fun b => b.images.length).sum := by
  intro bs
  induction bs with
  | nil =>
    intro m labs outs ls h
    unfold specValPass at h
    simp only [Except.ok.injEq, Prod.mk.injEq] at h
    obtain ⟨rfl, rfl, rfl⟩ := h
    simp
  | cons b bs ih =>
    intro m labs outs ls h
    unfold specValPass at h
    cases hf : CNN.forward m b.images (some b.extra) with
    | error e => rw [hf] at h; exact Except.noConfusion h
    | ok outputs =>
      rw [hf] at h
      dsimp only at h
      cases hs : specValPass c bs m with
      | error e => rw [hs] at h; exact Except.noConfusion h
      | ok r =>
        rw [hs] at h
        obtain ⟨labs0, outs0, ls0⟩ := r
        dsimp only at h
        simp only [Except.ok.injEq, Prod.mk.injEq] at h
        obtain ⟨rfl, rfl, rfl⟩ := h
        obtain ⟨ih1, ih2, ih3⟩ := ih m labs0 outs0 ls0 hs
        refine ⟨?_, ?_, ?_⟩
        · simp only [List.map_cons, List.sum_cons]
          rw [ih1]
        · simp only [List.length_append, List.map_cons, List.sum_cons, ih2]
        · simp only [List.length_append, List.map_cons, List.sum_cons, ih3,
            CNN.forward_ok_length m b.images _ outputs hf]

theorem processSample_other (t : String) (tbl : List EqRow) (nm : String) (p : ℚ)
    (h1 : t ≠ "mag") (h2 : t ≠ "dep") (h3 : t ≠ "lon") :
    processSample t tbl nm p = processSample "lat" tbl nm p := by
  have e1 : ("lat" : String) ≠ "mag" := by decide
  have e2 : ("lat" : String) ≠ "dep" := by decide
  have e3 : ("lat" : String) ≠ "lon" := by decide
  unfold processSample
  rw [if_neg h1, if_neg h2, if_neg h3, if_neg e1, if_neg e2, if_neg e3]

theorem processSamples_other (t : String) (tbl : List EqRow)
    (h1 : t ≠ "mag") (h2 : t ≠ "dep") (h3 : t ≠ "lon") :
    ∀ pairs, processSamples t tbl pairs = processSamples "lat" tbl pairs := by
  intro pairs
  induction pairs with
  | nil => rfl
  | cons q rest ih =>
    obtain ⟨nm, p⟩ := q
    unfold processSamples
    rw [processSample_other t tbl nm p h1 h2 h3, ih]

theorem testLoop_other (m : CNN) (tbl : List EqRow) (t : String)
    (h1 : t ≠ "mag") (h2 : t ≠ "dep") (h3 : t ≠ "lon") :
    ∀ bs, testLoop m t tbl bs = testLoop m "lat" tbl bs := by
  intro bs
  induction bs with
  | nil => rfl
  | cons b bs ih =>
    cases hf : CNN.forward m b.images (some b.extra) with
    | error e =>
      unfold testLoop
      rw [hf]
    | ok outputs =>
      unfold testLoop
      rw [hf]
      dsimp only
      rw [processSamples_other t tbl h1 h2 h3 (b.image_names.zip outputs), ih]

theorem fieldnamesFor_other (t : String)
    (h1 : t ≠ "mag") (h2 : t ≠ "dep") (h3 : t ≠ "lon") :
    fieldnamesFor t = ["id", "Lat", "prediction"] := by
  unfold fieldnamesFor
  rw [if_neg h1, if_neg h2, if_neg h3]

/-- Claim C1: for every model constructed with auxiliary parameters
enabled, calling forward without an auxiliary tensor raises the
required-input ValueError; calling it with an auxiliary tensor whose width
is neither 2 nor 3 raises the shape ValueError; and calling it with a
width-2 or width-3 auxiliary tensor (whose batch dimension matches the
image batch) succeeds, returning exactly one scalar per input sample. -/
theorem C1_forward_aux_contract (mt : String) (w : Weights) (m : CNN)
    (hm : CNN.init mt true w = .ok m) (xs : List Image) (ep : ExtraBatch)
    (hlen : ep.rows.length = xs.length) :
    CNN.forward m xs none =
        .error (.valueError "extra_params is required but not provided.") ∧
    (ep.width ≠ 2 → ep.width ≠ 3 →
      CNN.forward m xs (some ep) =
        .error (.valueError "error - extra_params shape")) ∧
    (ep.width = 2 ∨ ep.width = 3 →
      ∃ out, CNN.forward m xs (some ep) = .ok out ∧ out.length = xs.length) := by
  obtain ⟨hu, -, -⟩ := CNN.init_ok_fields mt true w m hm
  refine ⟨?_, ?_, ?_⟩
  · simp only [CNN.forward, hu, if_true]
  · intro h2 h3
    simp only [CNN.forward, hu, if_true]
    rw [if_neg h2, if_neg h3]
  · rintro (h2 | h3)
    · simp only [CNN.forward, hu, if_true]
      rw [if_pos h2]
      unfold catHead
      rw [if_pos (by simp [hlen])]
      exact ⟨_, rfl, by simp [hlen]⟩
    · by_cases h2 : ep.width = 2
      · simp only [CNN.forward, hu, if_true]
        rw [if_pos h2]
        unfold catHead
        rw [if_pos (by simp [hlen])]
        exact ⟨_, rfl, by simp [hlen]⟩
      · simp only [CNN.forward, hu, if_true]
        rw [if_neg h2, if_pos h3]
        unfold catHead
        rw [if_pos (by simp [hlen])]
        exact ⟨_, rfl, by simp [hlen]⟩

/-- Witness for C1 at a concrete constructed model and width-2 auxiliary
batch of matching batch dimension. -/
theorem C1_forward_aux_contract_witness :
    (CNN.init "simple_cnn" true cexW = .ok cexAux ∧
      (ExtraBatch.mk 2 [[0, 0]]).rows.length = [cexImg].length) ∧
    (CNN.forward cexAux [cexImg] none =
        .error (.valueError "extra_params is required but not provided.") ∧
      ((ExtraBatch.mk 2 [[0, 0]]).width ≠ 2 → (ExtraBatch.mk 2 [[0, 0]]).width ≠ 3 →
        CNN.forward cexAux [cexImg] (some (ExtraBatch.mk 2 [[0, 0]])) =
          .error (.valueError "error - extra_params shape")) ∧
      ((ExtraBatch.mk 2 [[0, 0]]).width = 2 ∨ (ExtraBatch.mk 2 [[0, 0]]).width = 3 →
        ∃ out, CNN.forward cexAux [cexImg] (some (ExtraBatch.mk 2 [[0, 0]])) = .ok out ∧
          out.length = [cexImg].length)) :=
  ⟨⟨rfl, rfl⟩,
    C1_forward_aux_contract "simple_cnn" cexW cexAux rfl [cexImg]
      (ExtraBatch.mk 2 [[0, 0]]) rfl⟩

/-- Claim C2 as stated is false on the code: for the concretely
constructed model with auxiliary parameters enabled there is no single
width variant fixed at construction such that every call of the other
width fails, because the constructor instantiates both encoders and
forward succeeds for width 2 and for width 3 on the same model. -/
theorem C2_single_variant_counterexample :
    CNN.init "simple_cnn" true cexW = .ok cexAux ∧
    ¬ ∃ v : Nat, (v = 2 ∨ v = 3) ∧
      ∀ ep : ExtraBatch, ep.rows.length = [cexImg].length → ep.width ≠ v →
        ¬ ∃ out, CNN.forward cexAux [cexImg] (some ep) = .ok out := by
  refine ⟨rfl, ?_⟩
  rintro ⟨v, hv, hall⟩
  rcases hv with rfl | rfl
  · exact hall { width := 3, rows := [[0, 0, 0]] } rfl (by decide) ⟨[0], rfl⟩
  · exact hall { width := 2, rows := [[0, 0]] } rfl (by decide) ⟨[0], rfl⟩

/-- Claim C2 amended: when auxiliary parameters are enabled, BOTH encoder
variants (for width 2 and for width 3) are instantiated at construction
time, and a forward call with a matching auxiliary batch succeeds exactly
when its width is 2 or 3, failing for every other width. -/
theorem C2_both_variants_amended (mt : String) (w : Weights) (m : CNN)
    (hm : CNN.init mt true w = .ok m) (xs : List Image) (ep : ExtraBatch)
    (hlen : ep.rows.length = xs.length) :
    m.param_fc_2 = w.param_fc_2_init ∧ m.param_fc_3 = w.param_fc_3_init ∧
    ((∃ out, CNN.forward m xs (some ep) = .ok out) ↔
      (ep.width = 2 ∨ ep.width = 3)) := by
  obtain ⟨hu, hp2, hp3⟩ := CNN.init_ok_fields mt true w m hm
  refine ⟨hp2, hp3, ?_, ?_⟩
  · rintro ⟨out, hout⟩
    by_contra hcon
    push_neg at hcon
    obtain ⟨h2, h3⟩ := hcon
    simp only [CNN.forward, hu, if_true] at hout
    rw [if_neg h2, if_neg h3] at hout
    exact Except.noConfusion hout
  · rintro (h2 | h3)
    · simp only [CNN.forward, hu, if_true]
      rw [if_pos h2]
      unfold catHead
      rw [if_pos (by simp [hlen])]
      exact ⟨_, rfl⟩
    · by_cases h2 : ep.width = 2
      · simp only [CNN.forward, hu, if_true]
        rw [if_pos h2]
        unfold catHead
        rw [if_pos (by simp [hlen])]
        exact ⟨_, rfl⟩
      · simp only [CNN.forward, hu, if_true]
        rw [if_neg h2, if_pos h3]
        unfold catHead
        rw [if_pos (by simp [hlen])]
        exact ⟨_, rfl⟩

/-- Witness for the amended C2 at a concrete constructed model and a
width-3 auxiliary batch. -/
theorem C2_both_variants_amended_witness :
    (CNN.init "simple_cnn" true cexW = .ok cexAux ∧
      (ExtraBatch.mk 3 [[0, 0, 0]]).rows.length = [cexImg].length) ∧
    (cexAux.param_fc_2 = cexW.param_fc_2_init ∧
      cexAux.param_fc_3 = cexW.param_fc_3_init ∧
      ((∃ out, CNN.forward cexAux [cexImg]
          (some (ExtraBatch.mk 3 [[0, 0, 0]])) = .ok out) ↔
        ((ExtraBatch.mk 3 [[0, 0, 0]]).width = 2 ∨
          (ExtraBatch.mk 3 [[0, 0, 0]]).width = 3))) :=
  ⟨⟨rfl, rfl⟩,
    C2_both_variants_amended "simple_cnn" cexW cexAux rfl [cexImg]
      (ExtraBatch.mk 3 [[0, 0, 0]]) rfl⟩

/-- Claim C3: construction succeeds exactly for resnet18, efficientnet_b0
and simple_cnn, recording a pre-reduction embedding dimension of 512, 1280
and 64 respectively, and raises the configuration ValueError for every
other backbone name. -/
theorem C3_backbone_construction (mt : String) (uep : Bool) (w : Weights) :
    (mt = "resnet18" →
      ∃ m, CNN.init mt uep w = .ok m ∧ m.feature_dim = 512) ∧
    (mt = "efficientnet_b0" →
      ∃ m, CNN.init mt uep w = .ok m ∧ m.feature_dim = 1280) ∧
    (mt = "simple_cnn" →
      ∃ m, CNN.init mt uep w = .ok m ∧ m.feature_dim = 64) ∧
    (mt ≠ "resnet18" → mt ≠ "efficientnet_b0" → mt ≠ "simple_cnn" →
      CNN.init mt uep w =
        .error (.valueError ("Unsupported model type: " ++ mt))) := by
  refine ⟨?_, ?_, ?_, ?_⟩
  · rintro rfl
    exact ⟨_, rfl, rfl⟩
  · rintro rfl
    exact ⟨_, rfl, rfl⟩
  · rintro rfl
    exact ⟨_, rfl, rfl⟩
  · intro h1 h2 h3
    unfold CNN.init
    rw [if_neg h1, if_neg h2, if_neg h3]

/-- Witness for C3: the three supported names at concrete weights, and the
unsupported name foo. -/
theorem C3_backbone_construction_witness :
    (∃ m, CNN.init "resnet18" true cexW = .ok m ∧ m.feature_dim = 512) ∧
    (∃ m, CNN.init "efficientnet_b0" true cexW = .ok m ∧ m.feature_dim = 1280) ∧
    (∃ m, CNN.init "simple_cnn" true cexW = .ok m ∧ m.feature_dim = 64) ∧
    CNN.init "foo" true cexW =
      .error (.valueError ("Unsupported model type: " ++ "foo")) :=
  ⟨(C3_backbone_construction "resnet18" true cexW).1 rfl,
    (C3_backbone_construction "efficientnet_b0" true cexW).2.1 rfl,
    (C3_backbone_construction "simple_cnn" true cexW).2.2.1 rfl,
    (C3_backbone_construction "foo" true cexW).2.2.2
      (by decide) (by decide) (by decide)⟩

/-- Claim C8: for every model constructed with auxiliary parameters
disabled, forward never consults the auxiliary argument - the call with
any auxiliary tensor equals the call with none - and it succeeds with
exactly one scalar per input sample. -/
theorem C8_forward_disabled_ignores_aux (mt : String) (w : Weights) (m : CNN)
    (hm : CNN.init mt false w = .ok m) (xs : List Image) (e : Option ExtraBatch) :
    CNN.forward m xs e = CNN.forward m xs none ∧
    ∃ out, CNN.forward m xs e = .ok out ∧ out.length = xs.length := by
  obtain ⟨hu, -, -⟩ := CNN.init_ok_fields mt false w m hm
  constructor
  · simp only [CNN.forward, hu, Bool.false_eq_true, if_false]
  · simp only [CNN.forward, hu, Bool.false_eq_true, if_false]
    exact ⟨_, rfl, by simp⟩

/-- Witness for C8 at a concrete constructed model, comparing a width-5
auxiliary tensor against the omitted argument. -/
theorem C8_forward_disabled_ignores_aux_witness :
    CNN.init "simple_cnn" false cexW = .ok cexPlain ∧
    (CNN.forward cexPlain [cexImg] (some (ExtraBatch.mk 5 [[1, 2, 3, 4, 5]])) =
        CNN.forward cexPlain [cexImg] none ∧
      ∃ out, CNN.forward cexPlain [cexImg]
          (some (ExtraBatch.mk 5 [[1, 2, 3, 4, 5]])) = .ok out ∧
        out.length = [cexImg].length) :=
  ⟨rfl, C8_forward_disabled_ignores_aux "simple_cnn" cexW cexPlain rfl [cexImg]
    (some (ExtraBatch.mk 5 [[1, 2, 3, 4, 5]]))⟩

/-- Claim C10: on a loader yielding zero batches, both the training loop
and the validation loop raise ZeroDivisionError when dividing the
accumulated loss by the accumulated sample count, which is zero. -/
theorem C10_empty_pass_zero_division (m : CNN) (c : Criterion) (opt : Opt) :
    train m [] c opt = .error .zeroDivisionError ∧
    validate m [] c = .error .zeroDivisionError :=
  ⟨rfl, rfl⟩

/-- Claim C4: for every non-empty training pass whose batches all carry at
least one sample and whose per-batch losses are given by the reference
pass, train returns the size-weighted mean loss: the sum over batches of
per-batch loss times batch size, divided by the total number of samples
seen. -/
theorem C4_train_weighted_mean (m : CNN) (bs : List TrainBatch) (c : Criterion)
    (opt : Opt) (ls : List (ℚ × Nat))
    (hne : bs ≠ []) (hsz : ∀ b ∈ bs, b.images ≠ [])
    (hls : specBatchLosses c opt bs m = .ok ls) :
    ∃ mf, train m bs c opt = .ok (sizeWeightedMean ls, mf) := by
  obtain ⟨mf, hmf⟩ := trainLoop_of_spec c opt bs m ls 0 0 hls
  refine ⟨mf, ?_⟩
  unfold train
  rw [hmf]
  dsimp only
  have hsizes := specBatchLosses_sizes c opt bs m ls hls
  have htot : ¬((0 : Nat) + (ls.map Prod.snd).sum = 0) := by
    cases bs with
    | nil => exact absurd rfl hne
    | cons b bs2 =>
      rw [hsizes]
      simp only [List.map_cons, List.sum_cons, Nat.zero_add]
      have h1 : 0 < b.images.length :=
        List.length_pos.mpr (hsz b (List.mem_cons_self _ _))
      omega
  rw [if_neg htot]
  simp only [zero_add, Nat.zero_add, sizeWeightedMean, Nat.cast_list_sum,
    List.map_map]
  rfl

/-- Witness for C4 on a one-batch pass with one sample and a constant
criterion of value 2. -/
theorem C4_train_weighted_mean_witness :
    cexTrainBs ≠ [] ∧ (∀ b ∈ cexTrainBs, b.images ≠ []) ∧
    specBatchLosses cexCrit cexOpt cexTrainBs cexPlain = .ok [(2, 1)] ∧
    ∃ mf, train cexPlain cexTrainBs cexCrit cexOpt =
      .ok (sizeWeightedMean [(2, 1)], mf) :=
  ⟨by simp [cexTrainBs], by simp [cexTrainBs, cexImg], rfl,
    C4_train_weighted_mean cexPlain cexTrainBs cexCrit cexOpt [(2, 1)]
      (by simp [cexTrainBs]) (by simp [cexTrainBs, cexImg]) rfl⟩

/-- Claim C5: for every non-empty validation pass whose batches carry at
least one sample and aligned label tensors, validate returns the pair of
the size-weighted mean loss and the mean absolute error computed over all
collected label and prediction pairs, and the model it returns is exactly
the model it was given - no parameter changes across the call. -/
theorem C5_validate_mae_frame (m : CNN) (bs : List TrainBatch) (c : Criterion)
    (labs outs : List ℚ) (ls : List (ℚ × Nat))
    (hne : bs ≠ []) (hsz : ∀ b ∈ bs, b.images ≠ [])
    (hlab : ∀ b ∈ bs, b.labels.length = b.images.length)
    (hg : specValPass c bs m = .ok (labs, outs, ls)) :
    ∃ mae, mean_absolute_error labs outs = .ok mae ∧
      validate m bs c = .ok ((sizeWeightedMean ls, mae), m) := by
  obtain ⟨hls, hlabs, houts⟩ := specValPass_sizes c bs m labs outs ls hg
  have hlen : labs.length = outs.length := by
    rw [hlabs, houts]
    congr 1
    exact List.map_congr_left fun b hb => hlab b hb
  have hpos : outs.length ≠ 0 := by
    rw [houts]
    cases bs with
    | nil => exact absurd rfl hne
    | cons b bs2 =>
      simp only [List.map_cons, List.sum_cons]
      have h1 : 0 < b.images.length :=
        List.length_pos.mpr (hsz b (List.mem_cons_self _ _))
      omega
  have hmae : mean_absolute_error labs outs =
      .ok ((List.zipWith (fun a b => |a - b|) labs outs).sum / (labs.length : ℚ)) := by
    unfold mean_absolute_error
    rw [if_neg (by push_neg; exact ⟨by omega, hpos⟩), if_neg (by omega)]
  refine ⟨_, hmae, ?_⟩
  have hloop := validateLoop_of_spec c bs m labs outs ls 0 0 [] [] hg
  unfold validate
  rw [hloop]
  dsimp only
  have htot : ¬((0 : Nat) + (ls.map Prod.snd).sum = 0) := by
    cases bs with
    | nil => exact absurd rfl hne
    | cons b bs2 =>
      rw [hls]
      simp only [List.map_cons, List.sum_cons, Nat.zero_add]
      have h1 : 0 < b.images.length :=
        List.length_pos.mpr (hsz b (List.mem_cons_self _ _))
      omega
  rw [if_neg htot]
  rw [List.nil_append, List.nil_append, hmae]
  dsimp only
  simp only [zero_add, Nat.zero_add, sizeWeightedMean, Nat.cast_list_sum,
    List.map_map]
  rfl

/-- Witness for C5 on a one-batch pass with one sample, label 1 and
prediction 0. -/
theorem C5_validate_mae_frame_witness :
    cexTrainBs ≠ [] ∧ (∀ b ∈ cexTrainBs, b.images ≠ []) ∧
    (∀ b ∈ cexTrainBs, b.labels.length = b.images.length) ∧
    specValPass cexCrit cexTrainBs cexPlain = .ok ([1], [0], [(2, 1)]) ∧
    ∃ mae, mean_absolute_error [1] [0] = .ok mae ∧
      validate cexPlain cexTrainBs cexCrit =
        .ok ((sizeWeightedMean [(2, 1)], mae), cexPlain) :=
  ⟨by simp [cexTrainBs], by simp [cexTrainBs, cexImg],
    by simp [cexTrainBs, cexImg], rfl,
    C5_validate_mae_frame cexPlain cexTrainBs cexCrit [1] [0] [(2, 1)]
      (by simp [cexTrainBs]) (by simp [cexTrainBs, cexImg])
      (by simp [cexTrainBs, cexImg]) rfl⟩

/-- Claim C6: per sample, magnitude and depth targets round the prediction
to 1 decimal both in the written record and in the metric contribution;
longitude and latitude targets record 3 decimals while contributing the
2-decimal rounding to the metric; and the aggregate MAE that test reports
is the metric value rounded to 3 decimals. -/
theorem C6_test_rounding (target name : String) (tbl : List EqRow) (p : ℚ)
    (row : PredRow) (yt yp : ℚ) (m : CNN) (bs : List TestBatch) (r : TestResult)
    (h1 : processSample target tbl name p = .ok (row, yt, yp))
    (h2 : test m bs tbl target = .ok r) :
    ((target = "mag" ∨ target = "dep") →
      row.prediction = pyround p 1 ∧ yp = pyround p 1) ∧
    ((target = "lon" ∨ target = "lat") →
      row.prediction = pyround p 3 ∧ yp = pyround p 2) ∧
    ∃ v, mean_absolute_error r.y_true r.y_pred = .ok v ∧ r.MAE = pyround v 3 := by
  refine ⟨?_, ?_, ?_⟩
  · rintro (rfl | rfl)
    · unfold processSample at h1
      rw [if_pos rfl] at h1
      cases hd : dictGet (label_mag tbl) name with
      | none => rw [hd] at h1; exact Except.noConfusion h1
      | some v =>
        rw [hd] at h1
        dsimp only at h1
        simp only [Except.ok.injEq, Prod.mk.injEq] at h1
        obtain ⟨hrow, -, hyp⟩ := h1
        rw [← hrow, ← hyp]
        exact ⟨rfl, rfl⟩
    · unfold processSample at h1
      rw [if_neg (by decide : ¬ ("dep" = "mag")), if_pos rfl] at h1
      cases hd : dictGet (label_dep tbl) name with
      | none => rw [hd] at h1; exact Except.noConfusion h1
      | some v =>
        rw [hd] at h1
        dsimp only at h1
        simp only [Except.ok.injEq, Prod.mk.injEq] at h1
        obtain ⟨hrow, -, hyp⟩ := h1
        rw [← hrow, ← hyp]
        exact ⟨rfl, rfl⟩
  · rintro (rfl | rfl)
    · unfold processSample at h1
      rw [if_neg (by decide : ¬ ("lon" = "mag")),
        if_neg (by decide : ¬ ("lon" = "dep")), if_pos rfl] at h1
      cases hd : dictGet (label_lon tbl) name with
      | none => rw [hd] at h1; exact Except.noConfusion h1
      | some v =>
        rw [hd] at h1
        dsimp only at h1
        simp only [Except.ok.injEq, Prod.mk.injEq] at h1
        obtain ⟨hrow, -, hyp⟩ := h1
        rw [← hrow, ← hyp]
        exact ⟨rfl, rfl⟩
    · unfold processSample at h1
      rw [if_neg (by decide : ¬ ("lat" = "mag")),
        if_neg (by decide : ¬ ("lat" = "dep")),
        if_neg (by decide : ¬ ("lat" = "lon"))] at h1
      cases hd : dictGet (label_lat tbl) name with
      | none => rw [hd] at h1; exact Except.noConfusion h1
      | some v =>
        rw [hd] at h1
        dsimp only at h1
        simp only [Except.ok.injEq, Prod.mk.injEq] at h1
        obtain ⟨hrow, -, hyp⟩ := h1
        rw [← hrow, ← hyp]
        exact ⟨rfl, rfl⟩
  · unfold test at h2
    cases ht : testLoop m target tbl bs with
    | error e => rw [ht] at h2; exact Except.noConfusion h2
    | ok res =>
      rw [ht] at h2
      obtain ⟨preds, yts, yps⟩ := res
      dsimp only at h2
      cases hv : mean_absolute_error yts yps with
      | error e => rw [hv] at h2; exact Except.noConfusion h2
      | ok v =>
        rw [hv] at h2
        simp only [Except.ok.injEq] at h2
        subst h2
        exact ⟨v, hv, rfl⟩

/-- Witness for C6 on target mag: the sample A with raw prediction 0, the
reference value 5, and the full test run on the one-sample batch. -/
theorem C6_test_rounding_witness :
    (processSample "mag" cexTbl "A" 0 =
        .ok ({ id := "A", label := 5, prediction := pyround 0 1 }, 5, pyround 0 1) ∧
      test cexPlain cexTestBs cexTbl "mag" = .ok cexRes) ∧
    ((("mag" = "mag" ∨ "mag" = "dep") →
        (PredRow.mk "A" 5 (pyround 0 1)).prediction = pyround 0 1 ∧
          pyround (0 : ℚ) 1 = pyround 0 1) ∧
      (("mag" = "lon" ∨ "mag" = "lat") →
        (PredRow.mk "A" 5 (pyround 0 1)).prediction = pyround 0 3 ∧
          pyround (0 : ℚ) 1 = pyround 0 2) ∧
      ∃ v, mean_absolute_error cexRes.y_true cexRes.y_pred = .ok v ∧
        cexRes.MAE = pyround v 3) :=
  ⟨⟨rfl, rfl⟩,
    C6_test_rounding "mag" "A" cexTbl 0 (PredRow.mk "A" 5 (pyround 0 1)) 5
      (pyround 0 1) cexPlain cexTestBs cexRes rfl rfl⟩

/-- Claim C7: whenever some identifier of the test set is absent from the
reference table (and the forward passes themselves succeed on every batch
of aligned names), test fails with a KeyError naming an absent identifier;
it neither skips the sample nor substitutes a default, since no result
table is produced at all. -/
theorem C7_test_missing_id (m : CNN) (bs : List TestBatch) (tbl : List EqRow)
    (target : String)
    (hnames : ∀ b ∈ bs, b.image_names.length = b.images.length)
    (hfwd : ∀ b ∈ bs, ∃ outs, CNN.forward m b.images (some b.extra) = .ok outs)
    (hmiss : ∃ b ∈ bs, ∃ nm ∈ b.image_names, nm ∉ tbl.map EqRow.image) :
    ∃ key, test m bs tbl target = .error (.keyError key) ∧
      key ∉ tbl.map EqRow.image := by
  cases ht : testLoop m target tbl bs with
  | error e =>
    obtain ⟨nm, rfl, hmem⟩ := testLoop_error_key m target tbl bs hfwd e ht
    refine ⟨nm, ?_, hmem⟩
    unfold test
    rw [ht]
  | ok res =>
    exfalso
    obtain ⟨b, hb, nm, hnm, habs⟩ := hmiss
    exact habs (testLoop_ok_names m target tbl bs res ht hnames b hb nm hnm)

/-- Witness for C7: a one-sample test set whose identifier Z is absent
from the one-row reference table. -/
theorem C7_test_missing_id_witness :
    (∀ b ∈ cexTestBsMissing, b.image_names.length = b.images.length) ∧
    (∀ b ∈ cexTestBsMissing,
      ∃ outs, CNN.forward cexPlain b.images (some b.extra) = .ok outs) ∧
    (∃ b ∈ cexTestBsMissing, ∃ nm ∈ b.image_names, nm ∉ cexTbl.map EqRow.image) ∧
    ∃ key, test cexPlain cexTestBsMissing cexTbl "mag" = .error (.keyError key) ∧
      key ∉ cexTbl.map EqRow.image :=
  ⟨by simp [cexTestBsMissing, cexImg],
    by
      intro b hb
      simp only [cexTestBsMissing, List.mem_singleton] at hb
      subst hb
      exact ⟨[0], rfl⟩,
    ⟨{ images := [cexImg], image_names := ["Z"],
        extra := { width := 2, rows := [[0, 0]] } },
      by simp [cexTestBsMissing], "Z", by simp, by decide⟩,
    C7_test_missing_id cexPlain cexTestBsMissing cexTbl "mag"
      (by simp [cexTestBsMissing, cexImg])
      (by
        intro b hb
        simp only [cexTestBsMissing, List.mem_singleton] at hb
        subst hb
        exact ⟨[0], rfl⟩)
      ⟨{ images := [cexImg], image_names := ["Z"],
          extra := { width := 2, rows := [[0, 0]] } },
        by simp [cexTestBsMissing], "Z", by simp, by decide⟩⟩

/-- Claim C9: the test loop never validates the target selector - every
target other than mag, dep and lon (latitude included, but also any
unsupported string) is processed exactly like lat: latitude ground-truth
lookup, 3-decimal record rounding with 2-decimal metric rounding, and the
id, Lat, prediction output columns - instead of failing. -/
theorem C9_target_fallback_lat (t : String) (m : CNN) (bs : List TestBatch)
    (tbl : List EqRow) (h1 : t ≠ "mag") (h2 : t ≠ "dep") (h3 : t ≠ "lon") :
    test m bs tbl t = test m bs tbl "lat" ∧
      fieldnamesFor t = ["id", "Lat", "prediction"] := by
  refine ⟨?_, fieldnamesFor_other t h1 h2 h3⟩
  unfold test
  rw [testLoop_other m tbl t h1 h2 h3 bs, fieldnamesFor_other t h1 h2 h3,
    fieldnamesFor_other "lat" (by decide) (by decide) (by decide)]

/-- Witness for C9 at the undocumented target string foo on a concrete
one-sample run. -/
theorem C9_target_fallback_lat_witness :
    test cexPlain cexTestBs cexTbl "foo" = test cexPlain cexTestBs cexTbl "lat" ∧
      fieldnamesFor "foo" = ["id", "Lat", "prediction"] :=
  C9_target_fallback_lat "foo" cexPlain cexTestBs cexTbl
    (by decide) (by decide) (by decide)

